import Mathlib

/-!
Shallow embedding of the fuzzy product-matching core of the UK retail food
pricing scraper, together with proofs about the properties its specification
claims.

Sources embedded:
  * `src/trolley_scraper_fixed.py` — name cleaning, brand/product segmentation,
    quantity and pack-size extraction, the similarity scorer
    `_calculate_similarity_improved`, and retailer price parsing.
  * `src/enhanced_matcher.py` — product-text cleaning, the promotional-price
    classifier, and the tiered match selector `enhanced_product_match`.

Modelling conventions:
  * Python strings are Lean `String`s, processed as `List Char`; the character
    classes `\d`, `\w`, `\s` of the Python regexes are modelled over ASCII
    (every string appearing in the claims is ASCII).
  * Python floats are modelled as `Rat`; the numeric literals that occur in
    the code (0.1, 0.3, 0.5, …) are exact decimals, so the rational model
    agrees with the float code away from rounding knife edges that no claim
    depends on.
  * Each Python regex is embedded as a dedicated scanner implementing
    `re.search` / `re.sub` semantics (leftmost match, greedy quantifiers) for
    that pattern.  The regexes used by the code are "linear" with character
    classes that are pairwise disjoint at each juncture, so greedy scanning
    without general backtracking is exact; the one place backtracking can
    fire (a trailing `\b` after `\d*`) is implemented explicitly.
  * `None` inputs of dynamically typed Python functions are modelled with
    `Option`; a function that raises on `None` is wrapped in an
    `Except`-returning variant.
-/

namespace PyStr

/-- Python `\s` over ASCII: space, tab, newline, carriage return,
vertical tab, form feed. -/
def isWs (c : Char) : Bool :=
  c == ' ' || c == '\t' || c == '\n' || c == '\r' || c == '\x0b' || c == '\x0c'

/-- Python `\d` over ASCII. -/
def isDig (c : Char) : Bool := c.isDigit

/-- Python `\w` over ASCII: letters, digits, underscore. -/
def isWord (c : Char) : Bool := c.isAlphanum || c == '_'

/-- `str.lower()` over ASCII. -/
def lowerL (s : List Char) : List Char := s.map Char.toLower

/-- Does `pat` occur at the head of `s`? -/
def leadsAt : List Char → List Char → Bool
  | [], _ => true
  | _ :: _, [] => false
  | p :: ps, c :: cs => p == c && leadsAt ps cs

/-- Index of the leftmost occurrence of `pat` in `s` (substring search,
Python `str.find` / `in`). -/
def findSub (pat : List Char) : List Char → Option Nat
  | [] => if leadsAt pat [] then some 0 else none
  | c :: cs =>
    if leadsAt pat (c :: cs) then some 0
    else (findSub pat cs).map (· + 1)

/-- Python `pat in s` for strings. -/
def hasSub (pat s : List Char) : Bool := (findSub pat s).isSome

/-- Substring containment at the `String` level. -/
def strHasSub (pat s : String) : Bool := hasSub pat.data s.data

/-- `str.strip()`: drop leading and trailing Python whitespace. -/
def stripL (s : List Char) : List Char :=
  ((s.dropWhile isWs).reverse.dropWhile isWs).reverse

def strip (s : String) : String := ⟨stripL s.data⟩

/-- `str.split()` with no argument: split on whitespace runs, no empties. -/
def splitWsAux : List Char → List Char → List (List Char)
  | [], acc => if acc.isEmpty then [] else [acc.reverse]
  | c :: cs, acc =>
    if isWs c then
      if acc.isEmpty then splitWsAux cs [] else acc.reverse :: splitWsAux cs []
    else splitWsAux cs (c :: acc)

def splitWs (s : List Char) : List (List Char) := splitWsAux s []

/-- `' '.join(words)`. -/
def joinWords : List (List Char) → List Char
  | [] => []
  | [w] => w
  | w :: ws => w ++ ' ' :: joinWords ws

/-- `re.sub(r'\s+', ' ', s)`: collapse every whitespace run to one space.
The flag records whether the previous character was whitespace. -/
def collapseWsAux : Bool → List Char → List Char
  | _, [] => []
  | prevWs, c :: cs =>
    if isWs c then
      if prevWs then collapseWsAux true cs else ' ' :: collapseWsAux true cs
    else c :: collapseWsAux false cs

def collapseWs (s : List Char) : List Char := collapseWsAux false s

/-- `str.replace(old, new)` (all occurrences, left to right); `old` is
assumed non-empty, as everywhere in the source.  Structural recursion on a
fuel bounded by the input length (each step consumes at least one
character, so the fuel never runs out). -/
def replaceAllAux (old new : List Char) : Nat → List Char → List Char
  | _, [] => []
  | 0, s => s
  | fuel + 1, c :: cs =>
    if leadsAt old (c :: cs) then
      new ++ replaceAllAux old new fuel (cs.drop (old.length - 1))
    else c :: replaceAllAux old new fuel cs

def replaceAll (old new s : List Char) : List Char :=
  replaceAllAux old new s.length s

/-- Numeric value of a digit run. -/
def natOfDigits (ds : List Char) : Nat :=
  ds.foldl (fun n c => 10 * n + (c.toNat - '0'.toNat)) 0

/-- Value of a decimal token with integer part `ip` and fractional part
`fp` (the value `float(ip ++ "." ++ fp)` computes, as an exact rational).
The integer case avoids `mkRat` so that it reduces in the kernel. -/
def ratOfNumTok (ip fp : List Char) : Rat :=
  if fp.isEmpty then (natOfDigits ip : Rat)
  else mkRat (natOfDigits (ip ++ fp)) (10 ^ fp.length)

/-- Greedy scan of `\d+` at the head: the digit run and the rest. -/
def scanNat (s : List Char) : Option (Nat × List Char) :=
  let ds := s.takeWhile isDig
  if ds.isEmpty then none else some (natOfDigits ds, s.dropWhile isDig)

/-- Greedy scan of `\d+\.?\d*` at the head: the value and the rest. -/
def scanNum (s : List Char) : Option (Rat × List Char) :=
  let ds := s.takeWhile isDig
  if ds.isEmpty then none
  else
    let s₁ := s.dropWhile isDig
    match s₁ with
    | '.' :: s₂ => some (ratOfNumTok ds (s₂.takeWhile isDig), s₂.dropWhile isDig)
    | _ => some (ratOfNumTok ds [], s₁)

/-- `\s*`: skip whitespace. -/
def skipWs (s : List Char) : List Char := s.dropWhile isWs

/-- Consume a literal (already matched case) at the head. -/
def litAt (lit : List Char) (s : List Char) : Option (List Char) :=
  if leadsAt lit s then some (s.drop lit.length) else none

/-- Does any of the alternatives occur at the head (regex alternation when
nothing follows it, so only existence matters)? -/
def anyLitAt (opts : List (List Char)) (s : List Char) : Bool :=
  opts.any (fun o => leadsAt o s)

/-- Leftmost-match driver: try the position matcher `f` at every suffix,
left to right (the semantics of `re.search`). -/
def searchL {α : Type} (f : List Char → Option α) : List Char → Option α
  | [] => f []
  | c :: cs => (f (c :: cs)).orElse (fun _ => searchL f cs)

/-- The shared final transformation of the normalizers:
`re.sub(r'\s+', ' ', …)` followed by `.strip()`. -/
def finalTrim (l : List Char) : String := ⟨stripL (collapseWs l)⟩

/-! Specification predicates for "whitespace-collapsed, trimmed" strings. -/

/-- No two adjacent whitespace characters. -/
def noWsPair : List Char → Bool
  | c₁ :: c₂ :: rest => !(isWs c₁ && isWs c₂) && noWsPair (c₂ :: rest)
  | _ => true

/-- The first character, when present, is not whitespace. -/
def noEdgeWs : List Char → Bool
  | [] => true
  | c :: _ => !isWs c

/-- The last character, when present, is not whitespace. -/
def noLastWs (s : List Char) : Bool := noEdgeWs s.reverse

/-- Whitespace-collapsed and trimmed: no whitespace run of length two, and
no leading or trailing whitespace. -/
def collapsedTrimmed (s : List Char) : Bool :=
  noWsPair s && noEdgeWs s && noLastWs s

end PyStr

namespace Trolley

open PyStr

/-! ### `_extract_quantity_and_pack_size` (src/trolley_scraper_fixed.py)

Multipack patterns are tried first, in source order; each pattern is a
`re.search` with `re.IGNORECASE`, so the input is lowered once. -/

/-- `(\d+)\s*x\s*(\d+\.?\d*)\s*(g|kg|ml|l|oz|lb)` at one position. -/
def mpWithUnitAt (s : List Char) : Option (Option Rat × Nat) := do
  let (pack, s) ← scanNat s
  let s ← litAt ['x'] (skipWs s)
  let (q, s) ← scanNum (skipWs s)
  let s := skipWs s
  if anyLitAt (["g", "kg", "ml", "l", "oz", "lb"].map String.data) s then
    pure (some q, pack)
  else none

/-- `(\d+)\s*<word>`, for the pack/cans/bottles/pieces/items patterns (the
optional trailing `s?` never affects the captured group). -/
def mpCountAt (word : List Char) (s : List Char) : Option (Option Rat × Nat) := do
  let (pack, s) ← scanNat s
  let _ ← litAt word (skipWs s)
  pure (none, pack)

/-- `(\d+\.?\d*)\s*(g|kg|ml|l|oz|lb)` at one position. -/
def singleUnitAt (s : List Char) : Option (Option Rat × Nat) := do
  let (q, s) ← scanNum s
  if anyLitAt (["g", "kg", "ml", "l", "oz", "lb"].map String.data) (skipWs s) then
    pure (some q, 1)
  else none

/-- `(\d+\.?\d*)\s*<word>`, for the single `pack`/`can`/`bottle` patterns. -/
def singleCountAt (word : List Char) (s : List Char) : Option (Option Rat × Nat) := do
  let (q, s) ← scanNum s
  let _ ← litAt word (skipWs s)
  pure (some q, 1)

/-- The ordered pattern cascade of `_extract_quantity_and_pack_size`:
first pattern (in source order) with a match anywhere in the string wins. -/
def quantityMatch (s : List Char) : Option (Option Rat × Nat) :=
  (searchL mpWithUnitAt s).orElse fun _ =>
  (searchL (mpCountAt "pack".data) s).orElse fun _ =>
  (searchL (mpCountAt "can".data) s).orElse fun _ =>
  (searchL (mpCountAt "bottle".data) s).orElse fun _ =>
  (searchL (mpCountAt "piece".data) s).orElse fun _ =>
  (searchL (mpCountAt "item".data) s).orElse fun _ =>
  (searchL singleUnitAt s).orElse fun _ =>
  (searchL (singleCountAt "pack".data) s).orElse fun _ =>
  (searchL (singleCountAt "can".data) s).orElse fun _ =>
  (searchL (singleCountAt "bottle".data) s)

/-- `_extract_quantity_and_pack_size`: returns `(quantity_value, pack_size)`;
`(None, 1)` when no pattern matches. -/
def extract_quantity_and_pack_size (product_name : String) : Option Rat × Nat :=
  (quantityMatch (lowerL product_name.data)).getD (none, 1)

/-- `_calculate_quantity_similarity`: quantity/pack bonus used by the
similarity scorer.  Pack sizes must match exactly for any positive bonus. -/
def calculate_quantity_similarity (name1 name2 : String) : Rat :=
  let qp1 := extract_quantity_and_pack_size name1
  let qp2 := extract_quantity_and_pack_size name2
  match qp1.1, qp2.1 with
  | none, _ => 0
  | _, none => 0
  | some q1, some q2 =>
    if qp1.2 ≠ qp2.2 then -0.5
    else if q1 = q2 then 0.3
    else if |q1 - q2| / max q1 q2 ≤ 0.1 then 0.2
    else if |q1 - q2| / max q1 q2 ≤ 0.2 then 0.1
    else -0.2

/-! ### Brand lexicon and segmentation (src/trolley_scraper_fixed.py) -/

/-- The static brand lexicon `known_brands` of `_extract_brand_and_product`,
in source order (longer variants of a family listed before shorter ones). -/
def known_brands : List String := [
  "Dr. Oetker", "Dr Oetker", "Charlie Bigham's", "Ainsley Harriott", "Nojo Tahir",
  "Alfez", "Al-fez", "Al Fez", "ALFEZ", "Al'Fez", "Baxters", "Kelloggs",
  "Great Scot", "Colman's", "Daddies", "Marshalls", "Natures Fi",
  "Fray Bento", "Wagamama", "WAGAMAMA", "Coca Cola", "Coca-Cola",
  "Dr Pepper", "Ko-Lee", "Schwartz", "Heinz", "Koka",
  "Tesco", "ASDA", "Sainsburys", "Sainsbury", "Ocado", "Morrisons",
  "Co-op", "Coop", "Walkers", "Pepsi", "Fanta", "Sprite", "7UP",
  "Lay's", "Pringles", "Doritos", "Oetker"]

/-- The closed stop-list `common_words` of generic descriptive words used by
the first-word fallback of `_extract_brand_and_product` (the Python source
writes it as a set literal with repeated entries; listed here sorted and
deduplicated, since only membership is ever used). -/
def common_words : List String := [
  "amaranth", "aroma", "assorted", "assortment", "authentic", "bag", "barley", "bean", "beef",
  "beverage", "big", "biscuit", "bottle", "bowl", "box", "brand", "bread", "buckwheat",
  "bulgur", "bundle", "butter", "cake", "can", "carton", "cereal", "cheese", "chicken",
  "chickpea", "chili", "chilli", "chinese", "chip", "chop", "chunk", "classic", "collection",
  "container", "cookie", "coriander", "corn", "cornmeal", "cous", "couscous", "cracker",
  "cream", "crisp", "crustacean", "cube", "cumin", "cup", "curry", "cut", "dairy", "deluxe",
  "dice", "dip", "dish", "double", "dozen", "dressing", "drink", "duck", "durum", "eastern",
  "egg", "eighth", "extra", "falafel", "family", "farro", "fifth", "fish", "flake", "flavor",
  "flavour", "flour", "food", "fragrance", "free", "french", "fresh", "fruit", "garlic",
  "giant", "ginger", "glass", "gluten", "goods", "grain", "granule", "grate", "greek", "grits",
  "half", "helping", "herb", "hominy", "honey", "hummus", "indian", "inventory", "italian",
  "item", "jam", "japanese", "jar", "jelly", "juice", "kamut", "kebab", "kit", "lamb", "large",
  "lentil", "line", "maize", "marmalade", "masala", "meal", "meat", "mediterranean", "mega",
  "merchandise", "mexican", "middle", "milk", "millet", "mince", "mini", "mixed", "modern",
  "mollusc", "mollusk", "moroccan", "mug", "multi", "natural", "ninth", "northern", "nut",
  "oat", "oil", "onion", "organic", "original", "pack", "package", "paprika", "pasta", "paste",
  "pea", "pepper", "piece", "plate", "polenta", "pork", "portion", "pot", "potato", "pouch",
  "powder", "premium", "product", "provision", "puree", "quarter", "quinoa", "range", "ration",
  "recipe", "rice", "rye", "sachet", "salt", "sauce", "scent", "seafood", "seasoning", "seed",
  "selection", "semolina", "series", "serving", "set", "seventh", "shawarma", "shellfish",
  "shish", "shred", "single", "sixth", "slice", "small", "snack", "sorghum", "southern",
  "spanish", "special", "spelt", "spice", "spread", "stock", "style", "sugar", "super",
  "supply", "syrup", "tabbouleh", "tandoori", "taste", "teff", "tenth", "thai", "third", "tiny",
  "tomato", "traditional", "triple", "triticale", "tub", "tumbler", "turkey", "turmeric",
  "variety", "vegan", "vegetable", "vegetarian", "vinegar", "water", "western", "wheat",
  "whole", "wrapper", "yoghurt", "yogurt"]

/-- The anchored first-word quantity test
`re.match(r'^\d+\.?\d*(g|kg|ml|l|oz|lb|pack|packs|pieces?|items?)$', w, re.IGNORECASE)`:
a number token followed by one of the unit words, consuming the whole word.
(The alternation plus the `$` anchor make the regex equivalent to a
membership test of the remainder.) -/
def isQuantityWord (w : List Char) : Bool :=
  match scanNum (lowerL w) with
  | none => false
  | some (_, rest) =>
    (["g", "kg", "ml", "l", "oz", "lb", "pack", "packs", "piece", "pieces",
      "item", "items"].map String.data).any (fun u => rest == u)

/-- `re.sub(r'^\s*[-–—]\s*', '', s)`: strip one leading dash together with
the whitespace around it (anchored, so it fires at most once). -/
def stripLeadDash (s : List Char) : List Char :=
  match s.dropWhile isWs with
  | c :: cs => if c == '-' || c == '–' || c == '—' then cs.dropWhile isWs else s
  | [] => s

/-- `_extract_brand_and_product`: case-insensitive substring search against
`known_brands` in list order; on a hit, the brand is the lexicon entry in its
stored casing and the product is the remainder of the original string.  With
no lexicon hit, the first word is used as a fallback brand unless it is a
quantity token (then the second word is tried when one more word follows) or
a stop-list word.  Returns `("", product)` when no brand is recognised. -/
def extract_brand_and_product (product_name : String) : String × String :=
  if product_name = "" then ("", "")
  else
    let product_lower := lowerL product_name.data
    match known_brands.find? (fun b => hasSub (lowerL b.data) product_lower) with
    | some brand =>
      match findSub (lowerL brand.data) product_lower with
      | some brand_start =>
        let product_part := stripL (product_name.data.drop (brand_start + brand.length))
        let product_part := stripL (stripLeadDash product_part)
        (brand, ⟨product_part⟩)
      | none => ("", product_name)   -- unreachable: find? guarantees an occurrence
    | none =>
      let words := splitWs product_name.data
      match words with
      | first_word :: w2 :: rest =>
        if isQuantityWord first_word then
          match rest with
          | [] => ("", product_name)
          | _ => (⟨w2⟩, ⟨joinWords rest⟩)
        else if common_words.contains ⟨lowerL first_word⟩ then
          ("", product_name)
        else (⟨first_word⟩, ⟨joinWords (w2 :: rest)⟩)
      | _ => ("", product_name)

/-- The closed alias table `brand_variations` of `_are_brands_similar`. -/
def brand_variations : List (String × List String) := [
  ("alfez", ["al-fez", "al fez", "al'fez"]),
  ("al-fez", ["alfez", "al fez", "al'fez"]),
  ("al fez", ["alfez", "al-fez", "al'fez"]),
  ("al'fez", ["alfez", "al-fez", "al fez"]),
  ("dr. oetker", ["dr oetker", "oetker"]),
  ("dr oetker", ["dr. oetker", "oetker"]),
  ("oetker", ["dr. oetker", "dr oetker"]),
  ("sainsburys", ["sainsbury"]),
  ("sainsbury", ["sainsburys"]),
  ("wagamama", ["wagamama"]),
  ("coca cola", ["coca-cola"]),
  ("coca-cola", ["coca cola"])]

/-- `_are_brands_similar`: exact case-insensitive match, or membership in the
same group of the closed `brand_variations` table. -/
def are_brands_similar (brand1 brand2 : String) : Bool :=
  let brand1_lower : String := ⟨stripL (lowerL brand1.data)⟩
  let brand2_lower : String := ⟨stripL (lowerL brand2.data)⟩
  if brand1_lower == brand2_lower then true
  else
    brand_variations.any fun mv =>
      (brand1_lower == mv.1 && mv.2.contains brand2_lower) ||
      (brand2_lower == mv.1 && mv.2.contains brand1_lower) ||
      (mv.2.contains brand1_lower && mv.2.contains brand2_lower)

/-! ### `_clean_product_name_for_comparison` -/

/-- `\b` between a previous character (`none` at the string edge) and what
follows: exactly one side is a word character. -/
def boundaryBeforeWord (prev : Option Char) : Bool :=
  match prev with
  | none => true
  | some p => !isWord p

/-- `\b` right after a word character: end of string or a non-word char. -/
def boundaryAfterWord : List Char → Bool
  | [] => true
  | c :: _ => !isWord c

/-- The unit alternatives `(g|kg|ml|l|oz|lb|pack|packs|pieces?|items?)` in
the order regex backtracking tries them (`pieces?`/`items?` are greedy, so
the `s` form comes first), each required to end at a word boundary. -/
def unitAltWithB (s : List Char) : Option Nat :=
  (["g", "kg", "ml", "l", "oz", "lb", "pack", "packs", "pieces", "piece",
    "items", "item"].map String.data).findSome? fun u =>
    if leadsAt u (lowerL (s.take u.length)) && boundaryAfterWord (s.drop u.length)
    then some u.length else none

/-- Length of a match of `\b\d+\.?\d*\s*(unit…)\b` (case-insensitive)
starting at this position, `none` if it does not match here. -/
def quantTokLen (prev : Option Char) (s : List Char) : Option Nat :=
  if !boundaryBeforeWord prev then none
  else
    let ds := s.takeWhile isDig
    if ds.isEmpty then none
    else
      let rest₁ := s.drop ds.length
      let (numLen, rest₂) :=
        match rest₁ with
        | '.' :: r => (ds.length + 1 + (r.takeWhile isDig).length, r.dropWhile isDig)
        | _ => (ds.length, rest₁)
      let wsn := (rest₂.takeWhile isWs).length
      match unitAltWithB (rest₂.drop wsn) with
      | some uLen => some (numLen + wsn + uLen)
      | none => none

/-- `re.sub` driver for a fixed-pattern scanner `f` that reports the length
(≥ 1) of a match at a position: leftmost, non-overlapping, tracking the
character before the current position for `\b` tests.  The replacement is a
function of the matched span (constant for deletions, a rewriting of the
span for the group-reference substitutions).  Structural recursion on a
fuel bounded by the input length (each step consumes at least one
character, so the fuel never runs out). -/
def subAllAux (f : Option Char → List Char → Option Nat) (repl : List Char → List Char) :
    Nat → Option Char → List Char → List Char
  | _, _, [] => []
  | 0, _, s => s
  | fuel + 1, prev, c :: cs =>
    match f prev (c :: cs) with
    | some (n + 1) =>
      let consumed := (c :: cs).take (n + 1)
      repl consumed ++ subAllAux f repl fuel consumed.getLast? (cs.drop n)
    | _ => c :: subAllAux f repl fuel (some c) cs

def subAll (f : Option Char → List Char → Option Nat) (repl : List Char → List Char)
    (prev : Option Char) (s : List Char) : List Char :=
  subAllAux f repl s.length prev s

/-- `_clean_product_name_for_comparison`: strip quantity tokens, replace the
characters outside `[\w\s-]` by spaces, collapse whitespace, trim. -/
def clean_product_name_for_comparison (product_name : String) : String :=
  if product_name = "" then ""
  else
    let clean_name := subAll quantTokLen (fun _ => []) none product_name.data
    let clean_name := clean_name.map (fun c =>
      if isWord c || isWs c || c == '-' then c else ' ')
    finalTrim clean_name

/-! ### `_is_multipack` -/

/-- Existence of `\d+\s*x\s*\d+` (case already folded by lowering). -/
def mpXPatAt (s : List Char) : Option Unit := do
  let (_, s) ← scanNat s
  let s ← litAt ['x'] (skipWs s)
  let (_, _) ← scanNat (skipWs s)
  pure ()

/-- Existence of `\d+\s*<word>` (the optional plural `s?` affects nothing). -/
def mpWordPatAt (word : List Char) (s : List Char) : Option Unit := do
  let (_, s) ← scanNat s
  let _ ← litAt word (skipWs s)
  pure ()

/-- `_is_multipack`: any of the multipack regexes matches (IGNORECASE), or
the phrases "family pack" / "multipack" occur in the lowered name. -/
def is_multipack (product_name : String) : Bool :=
  let s := lowerL product_name.data
  (searchL mpXPatAt s).isSome ||
  (searchL (mpWordPatAt "pack".data) s).isSome ||
  (searchL (mpWordPatAt "can".data) s).isSome ||
  (searchL (mpWordPatAt "bottle".data) s).isSome ||
  (searchL (mpWordPatAt "piece".data) s).isSome ||
  (searchL (mpWordPatAt "item".data) s).isSome ||
  hasSub "family pack".data s ||
  hasSub "multipack".data s

/-! ### `_clean_extracted_name` -/

/-- Case-insensitive literal at the head. -/
def litAtCI (lit : List Char) (s : List Char) : Option (List Char) :=
  if leadsAt lit (lowerL (s.take lit.length)) then some (s.drop lit.length) else none

/-- Length of `\d+\.?\d*` at the head (`none` without a leading digit). -/
def numTokLenAt (s : List Char) : Option Nat :=
  let ds := s.takeWhile isDig
  if ds.isEmpty then none
  else
    match s.drop ds.length with
    | '.' :: r => some (ds.length + 1 + (r.takeWhile isDig).length)
    | _ => some ds.length

/-- Match length of `£\s*\d+\.?\d*` at one position. -/
def pricePatLen (_ : Option Char) (s : List Char) : Option Nat :=
  match s with
  | '£' :: r =>
    let wsn := (r.takeWhile isWs).length
    (numTokLenAt (r.drop wsn)).map (fun n => 1 + wsn + n)
  | _ => none

/-- Match length of `\d+\.?\d*\s*per\s*100g` at one position. -/
def per100gLen (_ : Option Char) (s : List Char) : Option Nat := do
  let n ← numTokLenAt s
  let r₁ := s.drop n
  let r₂ ← litAt "per".data (r₁.dropWhile isWs)
  let r₃ ← litAt "100g".data (r₂.dropWhile isWs)
  pure (s.length - r₃.length)

/-- Match length of `\d+\.?\d*\s*each` at one position. -/
def eachPatLen (_ : Option Char) (s : List Char) : Option Nat := do
  let n ← numTokLenAt s
  let r₁ := s.drop n
  let r₂ ← litAt "each".data (r₁.dropWhile isWs)
  pure (s.length - r₂.length)

/-- Match length of `(\d+<unit>)([A-Z])` at one position (the
quantity-to-brand concatenation patterns). -/
def numUnitUpperLen (unit : List Char) (_ : Option Char) (s : List Char) : Option Nat :=
  let ds := s.takeWhile isDig
  if ds.isEmpty then none
  else
    match litAt unit (s.drop ds.length) with
    | some (c :: _) =>
      if c.isUpper then some (ds.length + unit.length + 1) else none
    | _ => none

/-- Match length of `([a-z])([A-Z])` at one position. -/
def lowerUpperLen (_ : Option Char) (s : List Char) : Option Nat :=
  match s with
  | c₁ :: c₂ :: _ => if c₁.isLower && c₂.isUpper then some 2 else none
  | _ => none

/-- The group-reference replacement `\1 \2` of the space-insertion patterns:
re-emit the matched span with a space before its final character. -/
def insertSpaceBeforeLast (m : List Char) : List Char :=
  m.take (m.length - 1) ++ ' ' :: m.drop (m.length - 1)

/-- Match length of `\d+\s+more\s+sizes?` (with `withS`) respectively
`\d+\s+more\s+size` (without), case-insensitively, at one position. -/
def moreSizesLen (withS : Bool) (_ : Option Char) (s : List Char) : Option Nat := do
  let ds := s.takeWhile isDig
  if ds.isEmpty then none
  else
    let r₁ := s.drop ds.length
    let w₁ := (r₁.takeWhile isWs).length
    if w₁ = 0 then none
    else do
      let r₂ ← litAtCI "more".data (r₁.drop w₁)
      let w₂ := (r₂.takeWhile isWs).length
      if w₂ = 0 then none
      else do
        let r₃ ← litAtCI "size".data (r₂.drop w₂)
        let r₄ :=
          if withS then
            match r₃ with
            | c :: r => if c.toLower == 's' then r else r₃
            | [] => r₃
          else r₃
        pure (s.length - r₄.length)

/-- `re.sub(r'\s*\d+\s*$', '', s)`: remove one trailing number together
with the whitespace around it (the pattern is end-anchored, so it removes
exactly the maximal such suffix, when the digits are present). -/
def subTrailingNum (s : List Char) : List Char :=
  let r := s.reverse
  let r₁ := r.dropWhile isWs
  let ds := r₁.takeWhile isDig
  if ds.isEmpty then s
  else ((r₁.drop ds.length).dropWhile isWs).reverse

/-- `_clean_extracted_name`: the name normalizer — strips price text,
re-inserts collapsed word boundaries, removes "more sizes" counters,
applies the literal malformed-pattern rewrites, then removes trailing
numbers and stray punctuation and collapses whitespace. -/
def clean_extracted_name (name : String) : String :=
  -- remove price information
  let n := subAll pricePatLen (fun _ => []) none name.data
  let n := subAll per100gLen (fun _ => []) none n
  let n := subAll eachPatLen (fun _ => []) none n
  -- add spaces between quantity and brand
  let n := subAll (numUnitUpperLen "g".data) insertSpaceBeforeLast none n
  let n := subAll (numUnitUpperLen "kg".data) insertSpaceBeforeLast none n
  let n := subAll (numUnitUpperLen "ml".data) insertSpaceBeforeLast none n
  let n := subAll (numUnitUpperLen "l".data) insertSpaceBeforeLast none n
  -- add spaces between brand and product
  let n := subAll lowerUpperLen insertSpaceBeforeLast none n
  -- clean up multiple spaces
  let n := collapseWs n
  -- remove "more sizes" and similar text
  let n := subAll (moreSizesLen true) (fun _ => []) none n
  let n := subAll (moreSizesLen false) (fun _ => []) none n
  -- specific Heinz multipack patterns
  let n :=
    if hasSub "415g6Heinz".data n ∧ hasSub "Baked Beans".data n then
      "Heinz Baked Beans Family Pack".data
    else if hasSub "400g6Heinz".data n ∧ hasSub "Family Pack".data n then
      replaceAll "400g6Heinz".data "Heinz ".data n
    else if hasSub "550g Heinz".data n ∧ hasSub "Family Pack".data n then
      replaceAll "550g ".data [] n
    else n
  -- Branston multipack patterns
  let n :=
    if hasSub "410g4Branston".data n ∧ hasSub "Baked Beans".data n then
      let n := replaceAll "410g4Branston".data "Branston ".data n
      if hasSub "in Tomato Sauce".data n then
        "Branston Baked Beans in Tomato Sauce 4 x 410g".data
      else if hasSub "Reduced Salt and Sugar".data n ∨ hasSub "Reduced Sugar".data n then
        "Branston Baked Beans Reduced Salt and Sugar 4 x 410g".data
      else n
    else n
  -- remove trailing numbers and special characters
  let n := subTrailingNum n
  let n := n.map (fun c => if isWord c || isWs c || c == '\'' || c == '-' then c else ' ')
  -- clean up multiple spaces, trim
  finalTrim n

/-- Exceptions of the Python runtime that the modelled calls can raise. -/
inductive PyExc
  | typeError
deriving DecidableEq, Repr

/-- `_clean_extracted_name` as actually callable from Python: its first
statement is `re.sub(r'£\s*\d+\.?\d*', '', name)`, which raises `TypeError`
when `name` is `None` — there is no `None` guard in the function. -/
def clean_extracted_name_py : Option String → Except PyExc String
  | none => .error .typeError
  | some name => .ok (clean_extracted_name name)

/-! ### `_calculate_similarity_improved` -/

/-- Set-flavoured deduplication (first occurrence kept); Python `set()`s of
words are modelled as duplicate-free lists, whose lengths are the
cardinalities the scorer divides. -/
def dedupFirst : List String → List String
  | [] => []
  | x :: xs => x :: (dedupFirst xs).filter (· ≠ x)

/-- The word sets of one cleaned product string. -/
def wordSet (product_clean : String) : List String :=
  dedupFirst ((splitWs product_clean.data).map (⟨·⟩))

/-- The Jaccard-with-variations base of the scorer: the intersection of the
two word sets, extended by every pair of distinct words of which one is a
substring of the other (both ends of such a pair are added), divided by the
union. -/
def jaccardWithVariations (words1 words2 : List String) : Rat :=
  let part1 := words1.filter fun w =>
    words2.contains w ||
    words2.any (fun v => v ≠ w && (strHasSub w v || strHasSub v w))
  let part2 := words2.filter fun v =>
    words1.any (fun w => w ≠ v && (strHasSub w v || strHasSub v w))
  let intersection := dedupFirst (part1 ++ part2)
  let union := dedupFirst (words1 ++ words2)
  (intersection.length : Rat) / (union.length : Rat)

/-- The bonus/penalty accumulation of `_calculate_similarity_improved`,
from the substring bonus through the multipack-mismatch penalty, applied
to the Jaccard base `j` (in source order). -/
def scoreBonuses (name1_lower name2_lower product1_clean product2_clean : String)
    (j : Rat) : Rat :=
  -- bonus for exact substring matches
  let j := if strHasSub product1_clean product2_clean ∨
              strHasSub product2_clean product1_clean then j + 0.2 else j
  -- "Family Pack" bonuses
  let j :=
    if strHasSub "family pack" name1_lower ∧ strHasSub "family pack" name2_lower
    then j + 0.5
    else if strHasSub "family pack" name1_lower ∨ strHasSub "family pack" name2_lower
    then (if is_multipack name1_lower ∨ is_multipack name2_lower then j + 0.3 else j)
    else j
  -- bonus when both are multipacks
  let j := if is_multipack name1_lower ∧ is_multipack name2_lower then j + 0.4 else j
  -- "Baked Beans" vs "Beanz" alias bonus
  let j :=
    if (strHasSub "baked beans" name1_lower ∧ strHasSub "beanz" name2_lower) ∨
       (strHasSub "beanz" name1_lower ∧ strHasSub "baked beans" name2_lower)
    then j + 0.2 else j
  -- same product-category bonus
  let j :=
    if (strHasSub "baked beans" name1_lower ∧ strHasSub "baked beans" name2_lower) ∨
       (strHasSub "beanz" name1_lower ∧ strHasSub "beanz" name2_lower)
    then j + 0.6 else j
  -- variant-consistency bonus
  let j :=
    if (strHasSub "reduced sugar" name1_lower ∧ strHasSub "reduced sugar" name2_lower) ∨
       (strHasSub "reduced salt" name1_lower ∧ strHasSub "reduced salt" name2_lower)
    then j + 0.3
    else if (¬ strHasSub "reduced sugar" name1_lower ∧ ¬ strHasSub "reduced salt" name1_lower) ∧
            (¬ strHasSub "reduced sugar" name2_lower ∧ ¬ strHasSub "reduced salt" name2_lower)
    then (if strHasSub "baked beans" name1_lower ∧ strHasSub "baked beans" name2_lower
          then j + 0.3 else j)
    else j
  -- cross-category penalties
  let j :=
    if (strHasSub "chilli black beans" name1_lower ∧
          (strHasSub "baked beans" name2_lower ∨ strHasSub "beanz" name2_lower)) ∨
       ((strHasSub "baked beans" name1_lower ∨ strHasSub "beanz" name1_lower) ∧
          strHasSub "chilli black beans" name2_lower)
    then j - 0.5 else j
  let j :=
    if (strHasSub "cream of tomato soup" name1_lower ∧
          (strHasSub "baked beans" name2_lower ∨ strHasSub "beanz" name2_lower)) ∨
       ((strHasSub "baked beans" name1_lower ∨ strHasSub "beanz" name1_lower) ∧
          strHasSub "cream of tomato soup" name2_lower)
    then j - 0.8 else j
  let j :=
    if (strHasSub "curry chickpeas" name1_lower ∧
          (strHasSub "baked beans" name2_lower ∨ strHasSub "beanz" name2_lower)) ∨
       ((strHasSub "baked beans" name1_lower ∨ strHasSub "beanz" name1_lower) ∧
          strHasSub "curry chickpeas" name2_lower)
    then j - 0.9 else j
  let j :=
    if (strHasSub "chickpeas" name1_lower ∧
          (strHasSub "baked beans" name2_lower ∨ strHasSub "beanz" name2_lower)) ∨
       ((strHasSub "baked beans" name1_lower ∨ strHasSub "beanz" name1_lower) ∧
          strHasSub "chickpeas" name2_lower)
    then j - 0.8 else j
  -- variant mismatch penalty
  let j :=
    if (strHasSub "reduced sugar" name1_lower ∨ strHasSub "reduced salt" name1_lower) ∧
       (¬ strHasSub "reduced sugar" name2_lower ∧ ¬ strHasSub "reduced salt" name2_lower)
    then j - 0.6
    else if (strHasSub "reduced sugar" name2_lower ∨ strHasSub "reduced salt" name2_lower) ∧
            (¬ strHasSub "reduced sugar" name1_lower ∧ ¬ strHasSub "reduced salt" name1_lower)
    then j - 0.6 else j
  -- multipack vs single mismatch penalty
  let j :=
    if is_multipack name1_lower ∧ ¬ is_multipack name2_lower then j - 0.5
    else if ¬ is_multipack name1_lower ∧ is_multipack name2_lower then j - 0.5
    else j
  j

/-- `_calculate_similarity_improved`: the additive similarity scorer.  The
bonuses and penalties appear in source order; `tail` is the common ending
(quantity bonus, then the clamp to [0, 1]) that every non-early-return path
runs. -/
def calculate_similarity_improved (name1 name2 : String) : Rat :=
  let name1_lower : String := ⟨lowerL name1.data⟩
  let name2_lower : String := ⟨lowerL name2.data⟩
  let bp1 := extract_brand_and_product name1
  let bp2 := extract_brand_and_product name2
  let brand1 := bp1.1
  let brand2 := bp2.1
  let product1_clean := clean_product_name_for_comparison bp1.2
  let product2_clean := clean_product_name_for_comparison bp2.2
  if product1_clean = "" ∧ product2_clean = "" then
    -- both are just brand names: compare brands only
    if brand1 ≠ "" ∧ brand2 ≠ "" ∧ are_brands_similar brand1 brand2 = true
    then 0.8 else 0
  else if product1_clean = "" ∨ product2_clean = "" then
    -- one is just a brand name
    if product1_clean = "" ∧ brand1 ≠ "" ∧ brand2 ≠ "" ∧
        are_brands_similar brand1 brand2 = true then 0.6
    else if product2_clean = "" ∧ brand1 ≠ "" ∧ brand2 ≠ "" ∧
        are_brands_similar brand1 brand2 = true then 0.6
    else 0
  else
    let words1 := wordSet product1_clean
    let words2 := wordSet product2_clean
    if words1 = [] ∨ words2 = [] then 0
    else
      let j := scoreBonuses name1_lower name2_lower product1_clean product2_clean
        (jaccardWithVariations words1 words2)
      -- strict brand gate, uncertainty discount, quantity bonus, clamp
      let tail := fun (x : Rat) =>
        max 0 (min 1 (x + calculate_quantity_similarity name1 name2))
      if brand1 ≠ "" ∧ brand2 ≠ "" then
        if are_brands_similar brand1 brand2 = true then tail (j + 0.5)
        else 0   -- different recognised brands: reject completely
      else if brand1 ≠ "" ∨ brand2 ≠ "" then tail (j * 0.3)
      else tail j

/-! ### Retailer price parsing -/

/-- The `target_retailers` preference list set up in `__init__`. -/
def target_retailers : List String :=
  ["Tesco", "Morrisons", "Ocado", "Sainsbury's", "ASDA", "Wilko", "Co-op"]

/-- `{retailer}[^£]*?£\s*(\d+\.?\d*)` at one position (on lowered text):
the lazy `[^£]*?` cannot cross a `£`, so the gap runs to the first `£`
after the retailer name, which must be followed by the price digits. -/
def retailerThenPriceAt (retailer : List Char) (s : List Char) : Option Rat := do
  let r₁ ← litAt retailer s
  let r₂ := r₁.dropWhile (fun c => c != '£')
  match r₂ with
  | '£' :: r₃ => ((scanNum (r₃.dropWhile isWs)).map (·.1))
  | _ => none

/-- `£\s*(\d+\.?\d*)[^£]*?{retailer}` at one position (on lowered text):
the retailer name must occur after the price and before the next `£`. -/
def priceThenRetailerAt (retailer : List Char) (s : List Char) : Option Rat := do
  match s with
  | '£' :: r₁ => do
    let (v, r₂) ← scanNum (r₁.dropWhile isWs)
    if hasSub retailer (r₂.takeWhile (fun c => c != '£')) then pure v else none
  | _ => none

/-- `_extract_retailer_price_fast`: the retailer-then-price pattern is
searched first over the whole page text, then the price-then-retailer
pattern; both case-insensitively; the first match wins. -/
def extract_retailer_price_fast (page_text retailer : String) : Option Rat :=
  let t := lowerL page_text.data
  let r := lowerL retailer.data
  (searchL (retailerThenPriceAt r) t).orElse fun _ =>
    searchL (priceThenRetailerAt r) t

/-- The `if price:` guard of the probing loops: a price was extracted and
is non-zero (Python float truthiness). -/
def foundPrice (page_text retailer : String) : Option Rat :=
  match extract_retailer_price_fast page_text retailer with
  | some p => if p ≠ 0 then some p else none
  | none => none

def priority_retailers : List String := ["Tesco", "Morrisons", "Ocado", "Sainsbury's"]

def other_retailers : List String := ["ASDA", "Wilko", "Co-op"]

/-- The first loop of `_parse_retailer_prices_fixed`: probe the priority
retailers in order, adding every hit, and `break` out of the loop only
after a hit for `'Tesco'`. -/
def probeWithTescoBreak (page_text : String) : List String → List (String × Rat)
  | [] => []
  | r :: rest =>
    if target_retailers.contains r then
      match foundPrice page_text r with
      | some p => (r, p) :: (if r = "Tesco" then [] else probeWithTescoBreak page_text rest)
      | none => probeWithTescoBreak page_text rest
    else probeWithTescoBreak page_text rest

/-- The second loop: probe without any break. -/
def probeAll (page_text : String) : List String → List (String × Rat)
  | [] => []
  | r :: rest =>
    if target_retailers.contains r then
      match foundPrice page_text r with
      | some p => (r, p) :: probeAll page_text rest
      | none => probeAll page_text rest
    else probeAll page_text rest

/-- `_parse_retailer_prices_fixed`, as the retailer→price map it builds
from the page text (each entry also carries the constant fields
`price_per_unit=''`, `currency='GBP'`, omitted here): priority retailers
first, the others only when no priority retailer yielded a price. -/
def parse_retailer_prices_fixed (page_text : String) : List (String × Rat) :=
  let retailer_prices := probeWithTescoBreak page_text priority_retailers
  if retailer_prices.isEmpty then probeAll page_text other_retailers
  else retailer_prices

end Trolley

namespace Enhanced

open PyStr
open Trolley (subAll boundaryBeforeWord boundaryAfterWord)

/-! ### `EnhancedProductMatcher` (src/enhanced_matcher.py)

The two fuzzywuzzy calls (`fuzz.ratio`, `fuzz.token_set_ratio`) are external
library code, not part of this repository; they are modelled as function
parameters returning the 0–100 score the library returns.  Every theorem
below holds for all values of these parameters. -/

/-- Match length of a word-bounded literal `\b<w>\b` at one position (all
the promotional phrase words consist of word characters only). -/
def wordPatLen (w : List Char) (prev : Option Char) (s : List Char) : Option Nat :=
  if boundaryBeforeWord prev && leadsAt w s &&
      boundaryAfterWord (s.drop w.length)
  then some w.length else none

/-- Match length of `\b\d+\s*[x×]\b` at one position. -/
def numXPatLen (prev : Option Char) (s : List Char) : Option Nat :=
  if !boundaryBeforeWord prev then none
  else
    let ds := s.takeWhile isDig
    if ds.isEmpty then none
    else
      let r₁ := s.drop ds.length
      let wsn := (r₁.takeWhile isWs).length
      match r₁.drop wsn with
      | c :: r₂ =>
        if (c == 'x' || c == '×') && boundaryAfterWord r₂
        then some (ds.length + wsn + 1) else none
      | [] => none

/-- Match length of `\b\d+\s*for\s*£?\d+\.?\d*\b` at one position.  The
trailing `\b` after the greedy `\d*` backtracks: the only viable shorter
ends are just after the decimal point (valid exactly when a word character
follows it) and just before it (always valid, since `.` is a non-word
character following a digit). -/
def numForPatLen (prev : Option Char) (s : List Char) : Option Nat :=
  if !boundaryBeforeWord prev then none
  else
    let ds := s.takeWhile isDig
    if ds.isEmpty then none
    else do
      let r₁ := (s.drop ds.length).dropWhile isWs
      let r₂ ← litAt "for".data r₁
      let r₃ := r₂.dropWhile isWs
      let r₄ := match r₃ with
        | '£' :: r => r
        | _ => r₃
      let ds₂ := r₄.takeWhile isDig
      if ds₂.isEmpty then none
      else
        let intEnd := s.length - r₄.length + ds₂.length
        match r₄.drop ds₂.length with
        | '.' :: r₅ =>
          let fs := r₅.takeWhile isDig
          if fs.isEmpty then
            -- dot consumed, no fraction: valid iff a word char follows the dot
            match r₅ with
            | c :: _ => if isWord c then some (intEnd + 1) else some intEnd
            | [] => some intEnd
          else
            if boundaryAfterWord (r₅.drop fs.length)
            then some (intEnd + 1 + fs.length)
            else some (intEnd + 1)   -- end just after the dot: a digit follows
        | rest => if boundaryAfterWord rest then some intEnd else none

/-- The `remove_phrases` substitutions of `clean_product_text`, in source
order, applied to the lowered text. -/
def removePhrases (s : List Char) : List Char :=
  let s := subAll numXPatLen (fun _ => []) none s
  let s := subAll (wordPatLen "offer".data) (fun _ => []) none s
  let s := subAll (wordPatLen "deal".data) (fun _ => []) none s
  let s := subAll (wordPatLen "special".data) (fun _ => []) none s
  let s := subAll (wordPatLen "clubcard".data) (fun _ => []) none s
  let s := subAll (wordPatLen "price".data) (fun _ => []) none s
  let s := subAll (wordPatLen "was".data) (fun _ => []) none s
  let s := subAll (wordPatLen "now".data) (fun _ => []) none s
  let s := subAll numForPatLen (fun _ => []) none s
  let s := subAll (wordPatLen "save".data) (fun _ => []) none s
  let s := subAll (wordPatLen "reduced".data) (fun _ => []) none s
  let s := subAll (wordPatLen "clearance".data) (fun _ => []) none s
  let s := subAll (wordPatLen "new".data) (fun _ => []) none s
  let s := subAll (wordPatLen "improved".data) (fun _ => []) none s
  subAll (wordPatLen "formula".data) (fun _ => []) none s

/-- `clean_product_text`: lowercase, remove the retail phrases, replace
punctuation by spaces, collapse whitespace, trim.  Returns `""` for `None`
and for the empty string (the Python truthiness guard). -/
def clean_product_text : Option String → String
  | none => ""
  | some text =>
    if text = "" then ""
    else
      let t := lowerL text.data
      let t := removePhrases t
      let t := t.map (fun c => if isWord c || isWs c then c else ' ')
      finalTrim t

/-- Search for a length-matcher anywhere in the string, with `\b`-correct
previous-character tracking. -/
def searchPat (f : Option Char → List Char → Option Nat) : Option Char → List Char → Bool
  | prev, [] => (f prev []).isSome
  | prev, c :: cs => (f prev (c :: cs)).isSome || searchPat f (some c) cs

/-- `is_promotional_price`: `True` iff one of the `promotional_phrases`
regexes matches the lowered text; `False` for `None`/empty input. -/
def is_promotional_price : Option String → Bool
  | none => false
  | some text =>
    if text = "" then false
    else
      let t := lowerL text.data
      searchPat (wordPatLen "clubcard".data) none t ||
      searchPat (wordPatLen "price".data) none t ||
      searchPat (wordPatLen "was".data) none t ||
      searchPat (wordPatLen "now".data) none t ||
      searchPat (wordPatLen "offer".data) none t ||
      searchPat (wordPatLen "deal".data) none t ||
      searchPat (wordPatLen "special".data) none t ||
      searchPat (wordPatLen "save".data) none t ||
      searchPat (wordPatLen "reduced".data) none t ||
      searchPat (wordPatLen "clearance".data) none t ||
      searchPat (wordPatLen "multibuy".data) none t ||
      searchPat numForPatLen none t ||
      searchPat numXPatLen none t

/-! ### Weight/volume extraction and brand matching -/

/-- Greedy scan of `\d+(?:\.\d+)?` at the head: unlike `\d+\.?\d*`, the dot
is consumed only when at least one digit follows it. -/
def scanNumStrict (s : List Char) : Option (Rat × List Char) :=
  let ds := s.takeWhile isDig
  if ds.isEmpty then none
  else
    match s.drop ds.length with
    | '.' :: r =>
      let fs := r.takeWhile isDig
      if fs.isEmpty then some (ratOfNumTok ds [], s.drop ds.length)
      else some (ratOfNumTok ds fs, r.drop fs.length)
    | r => some (ratOfNumTok ds [], r)

/-- `(\d+)\s*[x×]\s*(\d+(?:\.\d+)?)\s*(<unit>)` at one position: a multipack
with per-unit weight; the result is the total `count * individual`. -/
def mpWeightAt (unit : List Char) (s : List Char) : Option Rat := do
  let (n, s) ← scanNat s
  let s ← match skipWs s with
    | c :: r => if c == 'x' || c == '×' then pure r else none
    | [] => none
  let (q, s) ← scanNumStrict (skipWs s)
  if leadsAt unit (skipWs s) then pure ((n : Rat) * q) else none

/-- `(<number>)\s*<unit>` at one position for the single-weight patterns
(integer-only number for the pc/pack/x patterns). -/
def singleWeightAt (intOnly : Bool) (unit : List Char) (s : List Char) : Option Rat := do
  let (v, s) ←
    if intOnly then (scanNat s).map (fun p => ((p.1 : Rat), p.2)) else scanNumStrict s
  if leadsAt unit (skipWs s) then pure v else none

/-- `extract_weight_volume`: multipack formats first (total weight), then
the plain `weight_patterns` in source order; `None`/empty → no weight. -/
def extract_weight_volume : Option String → Option (Rat × String)
  | none => none
  | some text =>
    if text = "" then none
    else
      let t := lowerL text.data
      ((searchL (mpWeightAt "g".data) t).map (·, "g")).orElse fun _ =>
      ((searchL (mpWeightAt "kg".data) t).map (·, "kg")).orElse fun _ =>
      ((searchL (mpWeightAt "ml".data) t).map (·, "ml")).orElse fun _ =>
      ((searchL (mpWeightAt "l".data) t).map (·, "l")).orElse fun _ =>
      ((searchL (singleWeightAt false "g".data) t).map (·, "g")).orElse fun _ =>
      ((searchL (singleWeightAt false "kg".data) t).map (·, "kg")).orElse fun _ =>
      ((searchL (singleWeightAt false "ml".data) t).map (·, "ml")).orElse fun _ =>
      ((searchL (singleWeightAt false "l".data) t).map (·, "l")).orElse fun _ =>
      ((searchL (singleWeightAt true "pc".data) t).map (·, "pc")).orElse fun _ =>
      ((searchL (singleWeightAt true "pack".data) t).map (·, "pack")).orElse fun _ =>
      ((searchL (singleWeightAt true "x".data) t).map (·, "x"))

/-- The anchored brand patterns of `extract_brand_and_product`, three
regexes `^(alt|…)\b` tried in order; alternation order within each is the
source order, so one concatenated list is equivalent. -/
def brand_alternatives : List String :=
  ["heinz", "branston", "tesco", "sainsbury", "asda", "morrisons", "ocado",
   "co-op", "aldi", "lidl", "waitrose"] ++
  ["nestle", "kellogg", "unilever", "kraft", "mars", "cadbury", "walkers",
   "coca-cola", "pepsi"] ++
  ["dove", "lynx", "axe", "rexona", "sure", "nivea", "garnier", "loreal",
   "maybelline"]

/-- `extract_brand_and_product` (enhanced matcher): an anchored,
word-bounded brand prefix of the lowered name; the product is the lowered
name with the brand prefix removed and stripped. -/
def extract_brand_and_product : Option String → Option String × Option String
  | none => (none, none)
  | some product_name =>
    if product_name = "" then (none, none)
    else
      let pl := lowerL product_name.data
      match brand_alternatives.find? (fun b =>
          leadsAt b.data pl && boundaryAfterWord (pl.drop b.length)) with
      | some b => (some b, some ⟨stripL (pl.drop b.length)⟩)
      | none => (none, some ⟨pl⟩)

/-- The `brand_variations` table of `check_brand_similarity`. -/
def check_brand_variations : List (String × List String) := [
  ("heinz", ["heinz"]),
  ("branston", ["branston"]),
  ("tesco", ["tesco"]),
  ("sainsbury", ["sainsbury", "sainsburys"]),
  ("asda", ["asda"]),
  ("morrisons", ["morrisons"]),
  ("ocado", ["ocado"])]

/-- `str.lower()` on a `String`. -/
def lowerS (s : String) : String := ⟨lowerL s.data⟩

/-- `check_brand_similarity`: 1.0 for equal (or same-variation) brands,
otherwise the external `fuzz.ratio` value scaled to [0, 1]; 0.0 when either
name has no recognised brand. -/
def check_brand_similarity (fuzzRatio : String → String → Rat)
    (name1 name2 : String) : Rat :=
  let b1 := (extract_brand_and_product (some name1)).1
  let b2 := (extract_brand_and_product (some name2)).1
  match b1, b2 with
  | some brand1, some brand2 =>
    if lowerS brand1 = lowerS brand2 then 1
    else
      let similarity := fuzzRatio (lowerS brand1) (lowerS brand2) / 100
      if check_brand_variations.any (fun bv =>
          bv.2.contains (lowerS brand1) && bv.2.contains (lowerS brand2)) then 1
      else similarity
  | _, _ => 0

/-- `_convert_to_kg`: grams and milliliters divide by 1000; pieces, packs
and bare multipliers are not convertible. -/
def convert_to_kg (value : Rat) (unit : String) : Option Rat :=
  if lowerS unit = "g" then some (value / 1000)
  else if lowerS unit = "kg" then some value
  else if lowerS unit = "ml" then some (value / 1000)
  else if lowerS unit = "l" then some value
  else none

/-- `check_weight_similarity`: 1.0 for exactly equal converted weights, 0.8
within 10%, otherwise 0; 0 when either weight is missing (or 0.0 — the
Python truthiness check), or not convertible. -/
def check_weight_similarity (name1 name2 : String) : Rat :=
  match extract_weight_volume (some name1), extract_weight_volume (some name2) with
  | some (w1, u1), some (w2, u2) =>
    if w1 = 0 ∨ w2 = 0 then 0
    else
      match convert_to_kg w1 u1, convert_to_kg w2 u2 with
      | some k1, some k2 =>
        if k1 = k2 then 1
        else if |k1 - k2| / max k1 k2 ≤ 0.1 then 0.8
        else 0
      | _, _ => 0
  | _, _ => 0

/-- The `flavor_indicators` list of `check_same_brand_weight_match`. -/
def flavor_indicators : List String := [
  "tomato", "chicken", "beef", "vegetable", "mushroom", "cream", "cheese",
  "original", "classic", "traditional", "organic", "reduced", "light",
  "sweet", "sour", "spicy", "mild", "hot", "garlic", "herb", "basil",
  "oregano", "thyme", "rosemary", "lemon", "lime", "orange", "berry",
  "strawberry", "chocolate", "vanilla", "caramel", "coffee", "mint"]

/-- `check_same_brand_weight_match`: same recognised brand (similarity
≥ 0.8) and exactly equal converted weight; confidence 0.85 with a detected
flavour difference, 0.75 when only the product texts differ.  The Python
flavour loop overwrites, so the last list entry contained in a name wins. -/
def check_same_brand_weight_match (fuzzRatio : String → String → Rat)
    (product1 product2 : String) : Bool × Rat :=
  let bp1 := extract_brand_and_product (some product1)
  let bp2 := extract_brand_and_product (some product2)
  let wv1 := extract_weight_volume (some product1)
  let wv2 := extract_weight_volume (some product2)
  match bp1.1, bp2.1 with
  | some _, some _ =>
    if check_brand_similarity fuzzRatio product1 product2 < 0.8 then (false, 0)
    else
      match wv1, wv2 with
      | some (w1, u1), some (w2, u2) =>
        (match convert_to_kg w1 u1, convert_to_kg w2 u2 with
        | some k1, some k2 =>
          if k1 ≠ k2 then (false, 0)
          else
            let p1l : String := lowerS product1
            let p2l : String := lowerS product2
            let flavor1 := (flavor_indicators.filter (fun f => strHasSub f p1l)).getLast?
            let flavor2 := (flavor_indicators.filter (fun f => strHasSub f p2l)).getLast?
            match flavor1, flavor2 with
            | some f1, some f2 =>
              if f1 ≠ f2 then (true, 0.85)
              else if bp1.2 ≠ bp2.2 then (true, 0.75) else (false, 0)
            | _, _ => if bp1.2 ≠ bp2.2 then (true, 0.75) else (false, 0)
        | _, _ => (false, 0))
      | _, _ => (false, 0)
  | _, _ => (false, 0)

/-! ### `enhanced_product_match` -/

/-- One scraped candidate listing, reduced to the field the selector reads
(`item.get('name', '')`); the price/URL payload fields are carried through
`_create_product_match` unchanged and no claim mentions them. -/
structure Item where
  name : String
deriving DecidableEq, Repr

/-- The fields of the selector's `ProductMatch` result that the claims are
about; `price`, `unit_price`, `weight`, `validation_issues`, `retailer` and
`url` are computed from the chosen item alone and are omitted. -/
structure ProductMatch where
  name : String
  confidence : Rat
  match_type : String
deriving DecidableEq, Repr

/-- Stable insertion (after all elements `le`-below-or-equal), the building
block of a stable sort. -/
def insertStable {α : Type} (le : α → α → Bool) (x : α) : List α → List α
  | [] => [x]
  | y :: ys => if le y x then y :: insertStable le x ys else x :: y :: ys

/-- Stable sort by a total preorder `le` (Python `list.sort(key=…)`). -/
def sortStable {α : Type} (le : α → α → Bool) (l : List α) : List α :=
  l.foldl (fun acc x => insertStable le x acc) []

/-- `promotional_penalty = 0.3` of `enhanced_product_match`. -/
def promotional_penalty : Rat := 0.3

/-- The flat fuzzy-tier adjustment: `-promotional_penalty` for an item
whose name is classified promotional, else 0. -/
def promotional_adjustment (item_name : String) : Rat :=
  if is_promotional_price (some item_name) then -promotional_penalty else 0

/-- `enhanced_product_match`: three tiers — exact cleaned-name equality
(non-promotional first; a stable sort on a Boolean key is exactly the
stable partition), same-brand/same-weight (stable sort by promotional flag
then confidence descending), then fuzzy scoring with the promotional
penalty and the `threshold` cut.  `tokenSetRatio`/`fuzzRatio` are the
external fuzzywuzzy scorers (0–100). -/
def enhanced_product_match (tokenSetRatio fuzzRatio : String → String → Rat)
    (product_name : String) (scraped_items : List Item) (threshold : Rat) :
    Option ProductMatch :=
  if scraped_items.isEmpty then none
  else
    let product_name_clean := clean_product_text (some product_name)
    -- first pass: exact matches (items with falsy names are skipped)
    let exact_matches := scraped_items.filter fun item =>
      item.name != "" && clean_product_text (some item.name) == product_name_clean
    if !exact_matches.isEmpty then
      let sorted :=
        exact_matches.filter (fun it => !is_promotional_price (some it.name)) ++
        exact_matches.filter (fun it => is_promotional_price (some it.name))
      match sorted with
      | item :: _ => some ⟨item.name, 1, "exact"⟩
      | [] => none   -- unreachable: sorted is a permutation of a non-empty list
    else
      -- second pass: same brand and weight, different variant
      let sbw : List (Item × Rat × Bool) := scraped_items.filterMap fun item =>
        if item.name = "" then none
        else
          let r := check_same_brand_weight_match fuzzRatio product_name item.name
          if r.1 then some (item, r.2, is_promotional_price (some item.name)) else none
      if !sbw.isEmpty then
        let sorted := sortStable (fun a b =>
          (!a.2.2 && b.2.2) || (a.2.2 == b.2.2 && decide (a.2.1 ≥ b.2.1))) sbw
        match sorted with
        | (item, conf, _) :: _ => some ⟨item.name, conf, "same_brand_weight"⟩
        | [] => none   -- unreachable
      else
        -- third pass: fuzzy matching with promotional penalty
        let result := scraped_items.foldl (fun (acc : Option Item × Rat) item =>
          if item.name = "" then acc
          else
            let item_name_clean := clean_product_text (some item.name)
            let similarity := tokenSetRatio product_name_clean item_name_clean / 100
            let brand_match := check_brand_similarity fuzzRatio product_name item.name
            let weight_match := check_weight_similarity product_name item.name
            let total_score := similarity * 0.6 + brand_match * 0.2 +
              weight_match * 0.2 + promotional_adjustment item.name
            if total_score > acc.2 ∧ total_score > threshold
            then (some item, total_score) else acc) (none, 0)
        match result with
        | (some item, score) => some ⟨item.name, score, "fuzzy"⟩
        | (none, _) => none

end Enhanced

/-! ## The claims -/

section Claims

open PyStr

/-- C1.  Brand gate is absolute: whenever both names yield a (non-empty)
brand and `_are_brands_similar` rejects the pair — i.e. the brands are
neither equal case-insensitively nor members of the same group of the
closed `brand_variations` alias table — `_calculate_similarity_improved`
returns exactly 0.0, regardless of any other textual similarity.  (This is
proved for every extracted brand pair, which covers in particular the
recognised-lexicon brands of the claim.) -/
theorem C1_brand_gate_absolute (name1 name2 : String)
    (h1 : (Trolley.extract_brand_and_product name1).1 ≠ "")
    (h2 : (Trolley.extract_brand_and_product name2).1 ≠ "")
    (hsim : Trolley.are_brands_similar (Trolley.extract_brand_and_product name1).1
        (Trolley.extract_brand_and_product name2).1 = false) :
    Trolley.calculate_similarity_improved name1 name2 = 0 := by
  simp only [Trolley.calculate_similarity_improved]
  split_ifs <;> simp_all

/-- C1, witness: the spec's own example pair.  Both names carry recognised
brands (Kelloggs, Tesco), the brands are not similar, and the score is 0.0
despite the near-identical product text. -/
theorem C1_witness :
    Trolley.calculate_similarity_improved "Kelloggs Corn Flakes 500g"
      "Tesco Corn Flakes 500g" = 0 :=
  C1_brand_gate_absolute "Kelloggs Corn Flakes 500g" "Tesco Corn Flakes 500g"
    (by decide) (by decide) (by decide)

/-- C2.  For every pair of string inputs the similarity scorer returns a
value in the closed interval [0, 1]: every early-return path yields a
constant in [0, 1] and the accumulated total is clamped before return.
(Totality — "terminates without raising" — holds by construction of the
embedding: the function is a total Lean function.) -/
theorem C2_score_in_unit_interval (name1 name2 : String) :
    0 ≤ Trolley.calculate_similarity_improved name1 name2 ∧
    Trolley.calculate_similarity_improved name1 name2 ≤ 1 := by
  simp only [Trolley.calculate_similarity_improved]
  split_ifs <;> norm_num

/-- C4, counterexample: the claim "a unit quantity agreeing within 10%
contributes +0.3" fails — quantities 400 vs 415 agree within 10% but the
contribution is 0.2 (the code reserves 0.3 for exactly equal quantities);
and "mismatched extracted pack sizes contribute -0.5" fails when a name has
a pack count but no unit quantity ("Acme 6 pack"): the contribution is 0. -/
theorem C4_counterexample :
    Trolley.extract_quantity_and_pack_size "Acme 400g" = (some 400, 1) ∧
    Trolley.extract_quantity_and_pack_size "Acme 415g" = (some 415, 1) ∧
    |(400 : Rat) - 415| / max 400 415 ≤ 0.1 ∧
    Trolley.calculate_quantity_similarity "Acme 400g" "Acme 415g" = 0.2 ∧
    (0.2 : Rat) ≠ 0.3 ∧
    Trolley.extract_quantity_and_pack_size "Acme 6 pack" = (none, 6) ∧
    Trolley.extract_quantity_and_pack_size "Acme 415g" ≠
      Trolley.extract_quantity_and_pack_size "Acme 6 pack" ∧
    Trolley.calculate_quantity_similarity "Acme 6 pack" "Acme 415g" = 0 ∧
    (0 : Rat) ≠ -0.5 := by
  refine ⟨by decide, by decide, by norm_num [abs_sub_comm, abs_of_nonneg], ?_, by norm_num,
    by decide, by decide, ?_, by norm_num⟩
  · have h1 : Trolley.extract_quantity_and_pack_size "Acme 400g" = (some 400, 1) := by decide
    have h2 : Trolley.extract_quantity_and_pack_size "Acme 415g" = (some 415, 1) := by decide
    simp only [Trolley.calculate_quantity_similarity, h1, h2]
    norm_num [abs_sub_comm, abs_of_nonneg]
  · have h1 : Trolley.extract_quantity_and_pack_size "Acme 6 pack" = (none, 6) := by decide
    simp only [Trolley.calculate_quantity_similarity, h1]

/-- C4, amended.  The quantity/pack bonus of the scorer: the term is 0 when
either name yields no unit quantity (even with mismatched pack sizes); when
both unit quantities are present, mismatched pack sizes contribute -0.5,
and with equal pack sizes an exactly equal quantity contributes +0.3, a
non-equal quantity within 10% contributes +0.2, within 20% +0.1, and
otherwise -0.2.  No positive contribution is possible unless the pack sizes
match exactly. -/
theorem C4_quantity_pack_bonus (name1 name2 : String) :
    ((Trolley.extract_quantity_and_pack_size name1).1 = none ∨
       (Trolley.extract_quantity_and_pack_size name2).1 = none →
       Trolley.calculate_quantity_similarity name1 name2 = 0) ∧
    (∀ q1 q2 : Rat,
       (Trolley.extract_quantity_and_pack_size name1).1 = some q1 →
       (Trolley.extract_quantity_and_pack_size name2).1 = some q2 →
       ((Trolley.extract_quantity_and_pack_size name1).2 ≠
          (Trolley.extract_quantity_and_pack_size name2).2 →
          Trolley.calculate_quantity_similarity name1 name2 = -0.5) ∧
       ((Trolley.extract_quantity_and_pack_size name1).2 =
          (Trolley.extract_quantity_and_pack_size name2).2 →
         (q1 = q2 → Trolley.calculate_quantity_similarity name1 name2 = 0.3) ∧
         (q1 ≠ q2 → |q1 - q2| / max q1 q2 ≤ 0.1 →
            Trolley.calculate_quantity_similarity name1 name2 = 0.2) ∧
         (¬ |q1 - q2| / max q1 q2 ≤ 0.1 → |q1 - q2| / max q1 q2 ≤ 0.2 →
            Trolley.calculate_quantity_similarity name1 name2 = 0.1) ∧
         (¬ |q1 - q2| / max q1 q2 ≤ 0.2 →
            Trolley.calculate_quantity_similarity name1 name2 = -0.2))) ∧
    (0 < Trolley.calculate_quantity_similarity name1 name2 →
       (Trolley.extract_quantity_and_pack_size name1).2 =
         (Trolley.extract_quantity_and_pack_size name2).2) := by
  refine ⟨?_, ?_, ?_⟩
  · intro h
    simp only [Trolley.calculate_quantity_similarity]
    rcases h with h | h
    · rw [h]
      rcases (Trolley.extract_quantity_and_pack_size name2).1 with _ | q <;> rfl
    · rw [h]
      rcases (Trolley.extract_quantity_and_pack_size name1).1 with _ | q <;> rfl
  · intro q1 q2 hq1 hq2
    simp only [Trolley.calculate_quantity_similarity, hq1, hq2]
    constructor
    · intro hp
      rw [if_pos hp]
    · intro hp
      rw [if_neg (not_not_intro hp)]
      refine ⟨fun h => by rw [if_pos h], fun h1 h2 => ?_, fun h1 h2 => ?_, fun h1 => ?_⟩
      · rw [if_neg h1, if_pos h2]
      · have hne : q1 ≠ q2 := by
          intro he
          exact h1 (by rw [he, sub_self, abs_zero, zero_div]; norm_num)
        rw [if_neg hne, if_neg h1, if_pos h2]
      · have h1' : ¬ |q1 - q2| / max q1 q2 ≤ 0.1 := fun h => h1 (le_trans h (by norm_num))
        have hne : q1 ≠ q2 := by
          intro he
          exact h1 (by rw [he, sub_self, abs_zero, zero_div]; norm_num)
        rw [if_neg hne, if_neg h1', if_neg h1]
  · intro hpos
    by_contra hne
    have h0 : Trolley.calculate_quantity_similarity name1 name2 = -0.5 ∨
        Trolley.calculate_quantity_similarity name1 name2 = 0 := by
      simp only [Trolley.calculate_quantity_similarity]
      rcases (Trolley.extract_quantity_and_pack_size name1).1 with _ | q1 <;>
        rcases (Trolley.extract_quantity_and_pack_size name2).1 with _ | q2 <;>
        first
          | (right; rfl)
          | (left; simp [hne])
    rcases h0 with h0 | h0 <;> rw [h0] at hpos <;> exact absurd hpos (by norm_num)

/-- C4, witness: a multipack against a single unit — pack sizes 6 vs 1 with
unit quantities 415 vs 415 — receives exactly the -0.5 pack-mismatch
contribution. -/
theorem C4_witness :
    Trolley.calculate_quantity_similarity "Heinz Beanz 6 x 415g" "Heinz Beanz 415g" = -0.5 :=
  ((C4_quantity_pack_bonus "Heinz Beanz 6 x 415g" "Heinz Beanz 415g").2.1 415 415
    (by decide) (by decide)).1 (by decide)

/-- C5.  Quantity extraction is deterministic, multipack patterns first:
`extract("6 x 415g") = (415.0, 6)` (the multipack pattern wins even though
the single-unit pattern also matches), `extract("415g") = (415.0, 1)`,
`extract("Eggs 6 Pack") = (None, 6)`; a name matched by no pattern gives
`(None, 1)`; and whenever the first multipack pattern matches anywhere, its
result is the result of the extraction. -/
theorem C5_quantity_extraction_deterministic :
    Trolley.extract_quantity_and_pack_size "6 x 415g" = (some 415, 6) ∧
    Trolley.extract_quantity_and_pack_size "415g" = (some 415, 1) ∧
    Trolley.extract_quantity_and_pack_size "Eggs 6 Pack" = (none, 6) ∧
    (∀ name : String, Trolley.quantityMatch (PyStr.lowerL name.data) = none →
       Trolley.extract_quantity_and_pack_size name = (none, 1)) ∧
    (∀ (name : String) (r : Option Rat × Nat),
       PyStr.searchL Trolley.mpWithUnitAt (PyStr.lowerL name.data) = some r →
       Trolley.extract_quantity_and_pack_size name = r) := by
  refine ⟨by decide, by decide, by decide, ?_, ?_⟩
  · intro name h
    simp only [Trolley.extract_quantity_and_pack_size, h, Option.getD]
  · intro name r h
    simp only [Trolley.extract_quantity_and_pack_size, Trolley.quantityMatch, h,
      Option.orElse, Option.getD]

/-- C5, witness for the universally quantified parts: a name with no
quantity pattern at all defaults to `(None, 1)`, and the spec's multipack
example is decided by the first pattern. -/
theorem C5_witness :
    Trolley.extract_quantity_and_pack_size "Moroccan Couscous" = (none, 1) ∧
    Trolley.extract_quantity_and_pack_size "Heinz Beanz 6 x 415g" = (some 415, 6) :=
  ⟨(C5_quantity_extraction_deterministic.2.2.2.1 "Moroccan Couscous" (by decide)),
   (C5_quantity_extraction_deterministic.2.2.2.2 "Heinz Beanz 6 x 415g" (some 415, 6)
     (by decide))⟩

/-- C6, counterexample: the lexicon entry "ALFEZ" does not round-trip in
its own casing — the case-insensitive search hits the earlier entry
"Alfez" first, so the returned brand is "Alfez", not "ALFEZ" (the product
part is still "Widget 100g"). -/
theorem C6_counterexample :
    "ALFEZ" ∈ Trolley.known_brands ∧
    Trolley.extract_brand_and_product ("ALFEZ" ++ " Widget 100g") = ("Alfez", "Widget 100g") ∧
    ("Alfez" : String) ≠ "ALFEZ" :=
  ⟨by decide, by decide, by decide⟩

/-- C6, amended.  Round-trip segmentation: for every entry `b` of the brand
lexicon, `segment(b ++ " Widget 100g")` returns product "Widget 100g", and
the brand returned is `b` itself in its stored casing — except for the two
entries that are case variants of an earlier entry ("ALFEZ", "WAGAMAMA"),
for which the earlier entry's casing ("Alfez", "Wagamama") is returned. -/
theorem C6_round_trip_segmentation (b : String) (hb : b ∈ Trolley.known_brands) :
    (Trolley.extract_brand_and_product (b ++ " Widget 100g")).2 = "Widget 100g" ∧
    ((Trolley.extract_brand_and_product (b ++ " Widget 100g")).1 = b ∨
     (b = "ALFEZ" ∧ (Trolley.extract_brand_and_product (b ++ " Widget 100g")).1 = "Alfez") ∨
     (b = "WAGAMAMA" ∧
       (Trolley.extract_brand_and_product (b ++ " Widget 100g")).1 = "Wagamama")) := by
  have h : ∀ x ∈ Trolley.known_brands,
      (Trolley.extract_brand_and_product (x ++ " Widget 100g")).2 = "Widget 100g" ∧
      ((Trolley.extract_brand_and_product (x ++ " Widget 100g")).1 = x ∨
       (x = "ALFEZ" ∧ (Trolley.extract_brand_and_product (x ++ " Widget 100g")).1 = "Alfez") ∨
       (x = "WAGAMAMA" ∧
         (Trolley.extract_brand_and_product (x ++ " Widget 100g")).1 = "Wagamama")) := by
    decide
  exact h b hb

/-- C6, witness: the lexicon entry "Heinz" round-trips exactly. -/
theorem C6_witness :
    (Trolley.extract_brand_and_product ("Heinz" ++ " Widget 100g")).2 = "Widget 100g" ∧
    ((Trolley.extract_brand_and_product ("Heinz" ++ " Widget 100g")).1 = "Heinz" ∨
     ("Heinz" = "ALFEZ" ∧
       (Trolley.extract_brand_and_product ("Heinz" ++ " Widget 100g")).1 = "Alfez") ∨
     ("Heinz" = "WAGAMAMA" ∧
       (Trolley.extract_brand_and_product ("Heinz" ++ " Widget 100g")).1 = "Wagamama")) :=
  C6_round_trip_segmentation "Heinz" (by decide)

/-- C7, counterexample: "415g Moroccan Couscous" has no lexicon brand and a
quantity-token first word, yet the segmenter does NOT return "no brand plus
the full input": with three or more words it promotes the second word to
brand — here it returns brand "Moroccan" and product "Couscous". -/
theorem C7_counterexample :
    Trolley.isQuantityWord "415g".data = true ∧
    Trolley.known_brands.all (fun b =>
      !PyStr.hasSub (PyStr.lowerL b.data)
        (PyStr.lowerL "415g Moroccan Couscous".data)) = true ∧
    Trolley.extract_brand_and_product "415g Moroccan Couscous" = ("Moroccan", "Couscous") ∧
    ("Moroccan" : String) ≠ "" :=
  ⟨by decide, by decide, by decide, by decide⟩

/-- C7, amended.  Segmenter fallback when no lexicon brand matches: a
first word from the stop-list gives no brand and the full input as product;
a quantity-token first word gives no brand and the full input only when the
name has exactly two words — with three or more words the word after the
quantity token becomes the brand and the remaining words the product. -/
theorem C7_segmenter_fallback (name : String)
    (hnb : Trolley.known_brands.all (fun b =>
      !PyStr.hasSub (PyStr.lowerL b.data) (PyStr.lowerL name.data)) = true) :
    (∀ w ws, PyStr.splitWs name.data = w :: ws →
       Trolley.isQuantityWord w = false →
       Trolley.common_words.contains (⟨PyStr.lowerL w⟩ : String) = true →
       Trolley.extract_brand_and_product name = ("", name)) ∧
    (∀ w₁ w₂, PyStr.splitWs name.data = [w₁, w₂] →
       Trolley.isQuantityWord w₁ = true →
       Trolley.extract_brand_and_product name = ("", name)) ∧
    (∀ w₁ w₂ w₃ rest, PyStr.splitWs name.data = w₁ :: w₂ :: w₃ :: rest →
       Trolley.isQuantityWord w₁ = true →
       Trolley.extract_brand_and_product name =
         ((⟨w₂⟩ : String), (⟨PyStr.joinWords (w₃ :: rest)⟩ : String))) := by
  have hfind : Trolley.known_brands.find? (fun b =>
      PyStr.hasSub (PyStr.lowerL b.data) (PyStr.lowerL name.data)) = none := by
    rw [List.find?_eq_none]
    intro x hx
    have hx' := (List.all_eq_true.mp hnb) x hx
    simp only [Bool.not_eq_true'] at hx'
    simp [hx']
  have hne : name ≠ "" →
      (Trolley.extract_brand_and_product name =
        match PyStr.splitWs name.data with
        | first_word :: w2 :: rest =>
          if Trolley.isQuantityWord first_word then
            match rest with
            | [] => ("", name)
            | _ => ((⟨w2⟩ : String), (⟨PyStr.joinWords rest⟩ : String))
          else if Trolley.common_words.contains (⟨PyStr.lowerL first_word⟩ : String) then
            ("", name)
          else ((⟨first_word⟩ : String), (⟨PyStr.joinWords (w2 :: rest)⟩ : String))
        | _ => ("", name)) := by
    intro h
    simp only [Trolley.extract_brand_and_product, if_neg h, hfind]
  refine ⟨?_, ?_, ?_⟩
  · intro w ws hsplit hq hc
    by_cases h0 : name = ""
    · subst h0
      simp [Trolley.extract_brand_and_product]
    · rw [hne h0, hsplit]
      cases ws with
      | nil => rfl
      | cons w₂ rest =>
        have hc' : (⟨PyStr.lowerL w⟩ : String) ∈ Trolley.common_words := by
          simpa using hc
        simp [hq, hc']
  · intro w₁ w₂ hsplit hq
    by_cases h0 : name = ""
    · subst h0
      simp [PyStr.splitWs, PyStr.splitWsAux] at hsplit
    · rw [hne h0, hsplit]
      simp [hq]
  · intro w₁ w₂ w₃ rest hsplit hq
    by_cases h0 : name = ""
    · subst h0
      simp [PyStr.splitWs, PyStr.splitWsAux] at hsplit
    · rw [hne h0, hsplit]
      simp [hq]

/-- C7, witness: "organic beans mix" — no lexicon brand, first word in the
stop list — segments to no brand with the full input as product. -/
theorem C7_witness :
    Trolley.extract_brand_and_product "organic beans mix" = ("", "organic beans mix") :=
  (C7_segmenter_fallback "organic beans mix" (by decide)).1
    "organic".data ["beans".data, "mix".data] (by decide) (by decide) (by decide)

/-! Lemmas on whitespace collapsing and stripping, for C8. -/

theorem noWsPair_tail {c : Char} {l : List Char} (h : noWsPair (c :: l) = true) :
    noWsPair l = true := by
  cases l with
  | nil => rfl
  | cons d rest =>
    simp only [noWsPair, Bool.and_eq_true] at h
    exact h.2

theorem collapse_noWsPair (l : List Char) : ∀ b : Bool,
    noWsPair (collapseWsAux b l) = true ∧
    (b = true → noEdgeWs (collapseWsAux b l) = true) := by
  induction l with
  | nil => exact fun b => ⟨rfl, fun _ => rfl⟩
  | cons c cs ih =>
    intro b
    by_cases hc : isWs c = true
    · cases b with
      | true =>
        simp only [collapseWsAux, hc, if_true]
        exact ⟨(ih true).1, fun _ => (ih true).2 rfl⟩
      | false =>
        simp only [collapseWsAux, hc, if_true, if_neg (by simp : ¬ (false = true))]
        refine ⟨?_, fun h => nomatch h⟩
        have h1 := (ih true).1
        have h2 := (ih true).2 rfl
        cases hrec : collapseWsAux true cs with
        | nil => rfl
        | cons d rest =>
          rw [hrec] at h1 h2
          have hd : isWs d = false := by simpa [noEdgeWs] using h2
          simp [noWsPair, hd, h1]
    · have hc' : isWs c = false := by simpa using hc
      simp only [collapseWsAux, hc', if_false]
      constructor
      · have h1 := (ih false).1
        cases hrec : collapseWsAux false cs with
        | nil => rfl
        | cons d rest =>
          rw [hrec] at h1
          simp [noWsPair, hc', h1]
      · intro _
        simp [noEdgeWs, hc']

theorem noWsPair_dropWhile (l : List Char) (h : noWsPair l = true) :
    noWsPair (l.dropWhile isWs) = true := by
  induction l with
  | nil => exact h
  | cons c cs ih =>
    simp only [List.dropWhile_cons]
    by_cases hc : isWs c = true
    · rw [if_pos hc]
      exact ih (noWsPair_tail h)
    · rw [if_neg hc]
      exact h

theorem noEdgeWs_dropWhile (l : List Char) : noEdgeWs (l.dropWhile isWs) = true := by
  induction l with
  | nil => rfl
  | cons c cs ih =>
    simp only [List.dropWhile_cons]
    by_cases hc : isWs c = true
    · rw [if_pos hc]
      exact ih
    · rw [if_neg hc]
      simpa [noEdgeWs] using hc

theorem noWsPair_append_left (a b : List Char) (h : noWsPair (a ++ b) = true) :
    noWsPair a = true := by
  induction a with
  | nil => rfl
  | cons c cs ih =>
    cases cs with
    | nil => rfl
    | cons d rest =>
      have h' : noWsPair (c :: d :: (rest ++ b)) = true := by simpa using h
      have h2 := ih (noWsPair_tail h')
      have h1 : (!(isWs c && isWs d)) = true := by
        simp only [noWsPair, Bool.and_eq_true] at h'
        exact h'.1
      simp only [noWsPair, Bool.and_eq_true]
      exact ⟨h1, h2⟩

/-- The trailing transformation both normalizers end with —
`re.sub(r'\s+', ' ', …)` followed by `.strip()` — always produces a
whitespace-collapsed, trimmed string. -/
theorem stripL_collapseWs_collapsedTrimmed (x : List Char) :
    collapsedTrimmed (stripL (collapseWs x)) = true := by
  have hA : noWsPair (collapseWs x) = true := (collapse_noWsPair x false).1
  have hm1 : noWsPair ((collapseWs x).dropWhile isWs) = true := noWsPair_dropWhile _ hA
  have hm2 : noEdgeWs ((collapseWs x).dropWhile isWs) = true := noEdgeWs_dropWhile _
  have ht : ((collapseWs x).dropWhile isWs).reverse.takeWhile isWs ++
      ((collapseWs x).dropWhile isWs).reverse.dropWhile isWs =
      ((collapseWs x).dropWhile isWs).reverse :=
    List.takeWhile_append_dropWhile _ _
  have hmr : (collapseWs x).dropWhile isWs =
      (((collapseWs x).dropWhile isWs).reverse.dropWhile isWs).reverse ++
      (((collapseWs x).dropWhile isWs).reverse.takeWhile isWs).reverse := by
    conv_lhs => rw [← List.reverse_reverse ((collapseWs x).dropWhile isWs), ← ht]
    rw [List.reverse_append]
  simp only [collapsedTrimmed, stripL, noLastWs, Bool.and_eq_true]
  refine ⟨⟨?_, ?_⟩, ?_⟩
  · exact noWsPair_append_left _ _ (hmr ▸ hm1)
  · cases hr : (((collapseWs x).dropWhile isWs).reverse.dropWhile isWs).reverse with
    | nil => rfl
    | cons c rest =>
      rw [hr] at hmr
      rw [hmr] at hm2
      have hc : isWs c = false := by simpa [noEdgeWs] using hm2
      simp [noEdgeWs, hc]
  · simp only [List.reverse_reverse]
    exact noEdgeWs_dropWhile _

/-- Every output of the normalizers' shared final step is
whitespace-collapsed and trimmed. -/
theorem finalTrim_collapsedTrimmed (l : List Char) :
    collapsedTrimmed (finalTrim l).data = true :=
  stripL_collapseWs_collapsedTrimmed l

/-- C8, counterexample: `_clean_extracted_name` is not total on the
advertised domain — called with `None` it raises `TypeError` (its first
statement applies `re.sub` to the input with no `None` guard), contradicting
"never raises; returns "" for empty/None input". -/
theorem C8_counterexample :
    Trolley.clean_extracted_name_py none = Except.error Trolley.PyExc.typeError := rfl

/-- C8, amended.  Of the two cited normalizers, only
`clean_product_text` is total on empty/`None` input (returning "");
`_clean_extracted_name` returns "" for the empty string but raises
`TypeError` on `None` (the counterexample).  For every string input both
return a whitespace-collapsed, trimmed string and cannot raise. -/
theorem C8_name_normalizer_totality :
    Trolley.clean_extracted_name "" = "" ∧
    Enhanced.clean_product_text none = "" ∧
    Enhanced.clean_product_text (some "") = "" ∧
    (∀ s : String, PyStr.collapsedTrimmed (Trolley.clean_extracted_name s).data = true) ∧
    (∀ t : Option String, PyStr.collapsedTrimmed (Enhanced.clean_product_text t).data = true) := by
  refine ⟨by decide, rfl, by decide, ?_, ?_⟩
  · intro s
    simp only [Trolley.clean_extracted_name]
    exact finalTrim_collapsedTrimmed _
  · intro t
    match t with
    | none => rfl
    | some s =>
      simp only [Enhanced.clean_product_text]
      split_ifs with h
      · rfl
      · exact finalTrim_collapsedTrimmed _

/-- C9, counterexample: the retailer-price map can hold more than one
entry — probing does NOT stop at the first retailer with a price.  On a
page listing Morrisons £2 and Ocado £3 (and no Tesco price), both are
returned. -/
theorem C9_counterexample :
    Trolley.parse_retailer_prices_fixed "Morrisons £2 Ocado £3" =
      [("Morrisons", 2), ("Ocado", 3)] ∧
    (Trolley.parse_retailer_prices_fixed "Morrisons £2 Ocado £3").length = 2 :=
  ⟨by decide, by decide⟩

/-- C9, amended.  Retailers are probed in the fixed priority order Tesco,
Morrisons, Ocado, Sainsbury's, but probing stops early only when a Tesco
price is found (then the map is exactly the Tesco entry); otherwise every
priority retailer with an extracted non-zero price is added, and the
fallback retailers ASDA, Wilko, Co-op are probed (all of them, no early
exit) exactly when no priority retailer yielded a price. -/
theorem C9_retailer_probing (page_text : String) :
    (∀ p : Rat, Trolley.foundPrice page_text "Tesco" = some p →
       Trolley.parse_retailer_prices_fixed page_text = [("Tesco", p)]) ∧
    (Trolley.foundPrice page_text "Tesco" = none →
       Trolley.parse_retailer_prices_fixed page_text =
         (let prio := ["Morrisons", "Ocado", "Sainsbury's"].filterMap
             (fun r => (Trolley.foundPrice page_text r).map (fun p => (r, p)));
          if prio.isEmpty then
            ["ASDA", "Wilko", "Co-op"].filterMap
              (fun r => (Trolley.foundPrice page_text r).map (fun p => (r, p)))
          else prio)) := by
  have hT : Trolley.target_retailers.contains "Tesco" = true := rfl
  have hM : Trolley.target_retailers.contains "Morrisons" = true := rfl
  have hO : Trolley.target_retailers.contains "Ocado" = true := rfl
  have hS : Trolley.target_retailers.contains "Sainsbury's" = true := rfl
  have hA : Trolley.target_retailers.contains "ASDA" = true := rfl
  have hW : Trolley.target_retailers.contains "Wilko" = true := rfl
  have hC : Trolley.target_retailers.contains "Co-op" = true := rfl
  constructor
  · intro p hp
    simp only [Trolley.parse_retailer_prices_fixed, Trolley.priority_retailers,
      Trolley.probeWithTescoBreak, hp, hT, if_true]
    simp
  · intro h
    simp only [Trolley.parse_retailer_prices_fixed, Trolley.priority_retailers,
      Trolley.other_retailers, Trolley.probeWithTescoBreak, Trolley.probeAll, h,
      hT, hM, hO, hS, hA, hW, hC, if_true]
    rcases hm : Trolley.foundPrice page_text "Morrisons" with _ | pm <;>
      rcases ho : Trolley.foundPrice page_text "Ocado" with _ | po <;>
      rcases hs : Trolley.foundPrice page_text "Sainsbury's" with _ | ps <;>
      simp [hm, ho, hs] <;>
      rcases ha : Trolley.foundPrice page_text "ASDA" with _ | pa <;>
      rcases hw : Trolley.foundPrice page_text "Wilko" with _ | pw <;>
      rcases hc : Trolley.foundPrice page_text "Co-op" with _ | pc <;>
      simp [ha, hw, hc]

/-- C9, witness: a page with a Tesco price — the break fires and the map is
the single Tesco entry even though Morrisons also has a price. -/
theorem C9_witness :
    Trolley.parse_retailer_prices_fixed "Tesco £3 Morrisons £2" = [("Tesco", 3)] :=
  (C9_retailer_probing "Tesco £3 Morrisons £2").1 3 (by decide)

/-- C3, counterexample: a candidate whose raw name is the empty string is
skipped by every tier (`if not item_name: continue`), even when its cleaned
name equals the cleaned query name.  The query "offer" cleans to `""`, the
candidate `""` cleans to `""`, yet the selector returns nothing instead of
an exact match with confidence 1.0. -/
theorem C3_counterexample :
    Enhanced.clean_product_text (some "offer") = "" ∧
    Enhanced.clean_product_text (some "") = "" ∧
    Enhanced.enhanced_product_match (fun _ _ => 0) (fun _ _ => 0) "offer"
      [⟨""⟩] 0.7 = none :=
  ⟨by decide, by decide, by decide⟩

/-- C3, amended.  Exact tier of the match selector: for every candidate
list containing at least one candidate with a NON-EMPTY raw name whose
cleaned name equals the cleaned query name, the selector returns a result
with match_type "exact", confidence exactly 1.0, the name of one of those
candidates — and if any such candidate is non-promotional, the returned
candidate is non-promotional (non-promotional exact matches sort first). -/
theorem C3_exact_tier (tokenSetRatio fuzzRatio : String → String → Rat)
    (product_name : String) (scraped_items : List Enhanced.Item) (threshold : Rat)
    (h : scraped_items.filter (fun item =>
        item.name != "" && (Enhanced.clean_product_text (some item.name) ==
          Enhanced.clean_product_text (some product_name))) ≠ []) :
    ∃ m : Enhanced.ProductMatch,
      Enhanced.enhanced_product_match tokenSetRatio fuzzRatio product_name
        scraped_items threshold = some m ∧
      m.match_type = "exact" ∧ m.confidence = 1 ∧
      (∃ item ∈ scraped_items.filter (fun item =>
          item.name != "" && (Enhanced.clean_product_text (some item.name) ==
            Enhanced.clean_product_text (some product_name))),
        m.name = item.name) ∧
      ((∃ item ∈ scraped_items.filter (fun item =>
          item.name != "" && (Enhanced.clean_product_text (some item.name) ==
            Enhanced.clean_product_text (some product_name))),
          Enhanced.is_promotional_price (some item.name) = false) →
        Enhanced.is_promotional_price (some m.name) = false) := by
  have hne : scraped_items ≠ [] := by
    intro h0
    rw [h0] at h
    exact h rfl
  have hie : scraped_items.isEmpty = false := by
    cases scraped_items with
    | nil => exact absurd rfl hne
    | cons a l => rfl
  simp only [Enhanced.enhanced_product_match, hie, Bool.false_eq_true, if_false]
  set em := scraped_items.filter (fun item =>
      item.name != "" && (Enhanced.clean_product_text (some item.name) ==
        Enhanced.clean_product_text (some product_name))) with hem
  have hemE : em.isEmpty = false := by
    cases hc : em with
    | nil => exact absurd (hem ▸ hc) h
    | cons a l => rfl
  rw [hemE]
  simp only [Bool.not_false, if_true]
  cases hnp : em.filter (fun it => !Enhanced.is_promotional_price (some it.name)) with
  | nil =>
    -- every exact match is promotional
    have hall : ∀ x ∈ em, Enhanced.is_promotional_price (some x.name) = true := by
      intro x hx
      have := List.filter_eq_nil.mp hnp x hx
      simpa using this
    have hself : em.filter (fun it => Enhanced.is_promotional_price (some it.name)) = em :=
      List.filter_eq_self.mpr hall
    rw [hself]
    cases hc : em with
    | nil => exact absurd (hem ▸ hc) h
    | cons a l =>
      simp only [List.nil_append]
      refine ⟨⟨a.name, 1, "exact"⟩, rfl, rfl, rfl,
        ⟨a, List.mem_cons_self a l, rfl⟩, ?_⟩
      rintro ⟨item, hmem, hpromo⟩
      have := hall item (hc ▸ hmem)
      rw [this] at hpromo
      cases hpromo
  | cons j js =>
    simp only [List.cons_append]
    have hj : j ∈ em ∧ (!Enhanced.is_promotional_price (some j.name)) = true := by
      have := List.mem_filter.mp (hnp ▸ List.mem_cons_self j js)
      exact this
    refine ⟨⟨j.name, 1, "exact"⟩, rfl, rfl, rfl, ⟨j, hj.1, rfl⟩, ?_⟩
    intro _
    simpa using hj.2

/-- C3, witness: a one-candidate list whose (non-empty) name equals the
query byte-for-byte returns an exact match with confidence 1.0. -/
theorem C3_witness :
    ∃ m : Enhanced.ProductMatch,
      Enhanced.enhanced_product_match (fun _ _ => 0) (fun _ _ => 0) "Beanz"
        [⟨"Beanz"⟩] 0.7 = some m ∧
      m.match_type = "exact" ∧ m.confidence = 1 ∧
      (∃ item ∈ ([⟨"Beanz"⟩] : List Enhanced.Item).filter (fun item =>
          item.name != "" && (Enhanced.clean_product_text (some item.name) ==
            Enhanced.clean_product_text (some "Beanz"))),
        m.name = item.name) ∧
      ((∃ item ∈ ([⟨"Beanz"⟩] : List Enhanced.Item).filter (fun item =>
          item.name != "" && (Enhanced.clean_product_text (some item.name) ==
            Enhanced.clean_product_text (some "Beanz"))),
          Enhanced.is_promotional_price (some item.name) = false) →
        Enhanced.is_promotional_price (some m.name) = false) :=
  C3_exact_tier (fun _ _ => 0) (fun _ _ => 0) "Beanz" [⟨"Beanz"⟩] 0.7 (by decide)

/-- C10, counterexample: "a digit followed by x" is not sufficient — the
promotional pattern is `\b\d+\s*[x×]\b`, which also requires word
boundaries.  "2x4" contains the digit 2 followed by "x", yet the classifier
returns False (the "x" is followed by the word character "4"). -/
theorem C10_counterexample :
    PyStr.hasSub "2x".data "2x4".data = true ∧
    Enhanced.is_promotional_price (some "2x4") = false :=
  ⟨by decide, by decide⟩

/-- C10, amended.  The promotional-marker classifier returns True for every
name containing a word-bounded `\d+\s*[x×]` (the multipack surface form,
e.g. "6 x 415g") or the standalone word "price"; every promotional name
receives the flat -0.3 (`-promotional_penalty`) fuzzy-tier adjustment; and
in the exact tier a promotional exact match sorts after a non-promotional
one: with both an exact promotional and an exact non-promotional candidate,
the non-promotional candidate is returned. -/
theorem C10_promotional_classifier (name : String) :
    ((Enhanced.searchPat Enhanced.numXPatLen none (PyStr.lowerL name.data) = true ∨
      Enhanced.searchPat (Enhanced.wordPatLen "price".data) none
        (PyStr.lowerL name.data) = true) →
      Enhanced.is_promotional_price (some name) = true) ∧
    (Enhanced.is_promotional_price (some name) = true →
      Enhanced.promotional_adjustment name = -Enhanced.promotional_penalty) ∧
    (∀ (tokenSetRatio fuzzRatio : String → String → Rat) (threshold : Rat)
       (it₁ it₂ : Enhanced.Item) (query : String),
       it₁.name ≠ "" → it₂.name ≠ "" →
       Enhanced.clean_product_text (some it₁.name) =
         Enhanced.clean_product_text (some query) →
       Enhanced.clean_product_text (some it₂.name) =
         Enhanced.clean_product_text (some query) →
       Enhanced.is_promotional_price (some it₁.name) = true →
       Enhanced.is_promotional_price (some it₂.name) = false →
       (Enhanced.enhanced_product_match tokenSetRatio fuzzRatio query [it₁, it₂]
          threshold).map Enhanced.ProductMatch.name = some it₂.name) := by
  refine ⟨?_, ?_, ?_⟩
  · rintro (hx | hp)
    · by_cases h0 : name = ""
      · subst h0
        exact absurd hx (by decide)
      · simp only [Enhanced.is_promotional_price, if_neg h0]
        simp [hx]
    · by_cases h0 : name = ""
      · subst h0
        exact absurd hp (by decide)
      · simp only [Enhanced.is_promotional_price, if_neg h0]
        simp [hp]
  · intro h
    simp only [Enhanced.promotional_adjustment, h, if_true]
  · intro tokenSetRatio fuzzRatio threshold it₁ it₂ query h1 h2 hc1 hc2 hp1 hp2
    have e1 : (it₁.name != "") = true := by simpa using h1
    have e2 : (it₂.name != "") = true := by simpa using h2
    have c1 : (Enhanced.clean_product_text (some it₁.name) ==
        Enhanced.clean_product_text (some query)) = true := by simpa using hc1
    have c2 : (Enhanced.clean_product_text (some it₂.name) ==
        Enhanced.clean_product_text (some query)) = true := by simpa using hc2
    simp [Enhanced.enhanced_product_match, List.filter, e1, e2, c1, c2, hp1, hp2]

/-- C10, witness: "6 x 415g" (multipack notation) is classified as
promotional and would receive the -0.3 fuzzy adjustment; and with one
promotional ("Beanz Clubcard Price") and one non-promotional ("Beanz")
exact candidate, the non-promotional one is returned by the exact tier. -/
theorem C10_witness :
    Enhanced.is_promotional_price (some "6 x 415g") = true ∧
    Enhanced.promotional_adjustment "6 x 415g" = -Enhanced.promotional_penalty ∧
    (Enhanced.enhanced_product_match (fun _ _ => 0) (fun _ _ => 0) "Beanz"
      [⟨"Beanz Clubcard Price"⟩, ⟨"Beanz"⟩] 0.7).map Enhanced.ProductMatch.name =
      some "Beanz" := by
  have h := C10_promotional_classifier "6 x 415g"
  have hp := h.1 (Or.inl (by decide))
  exact ⟨hp, h.2.1 hp,
    (C10_promotional_classifier "x").2.2 (fun _ _ => 0) (fun _ _ => 0) 0.7
      ⟨"Beanz Clubcard Price"⟩ ⟨"Beanz"⟩ "Beanz"
      (by decide) (by decide) (by decide) (by decide) (by decide) (by decide)⟩

end Claims
